import Mathlib

/-!
Shallow embedding of src/src/steps.rs (windows-image-builder): the partition
listing scan of get_output_image_partition_size, the shrink size computation
and two-attempt resize of shrink_output_image, and theorems about them.
External command execution (util.rs run_command_check_status and
grep_command_for_row_and_column) is a collaborator: command results enter as
parameters (the stdout lines, the sector-size string, the resize executor).
-/

namespace Steps

/-- Models str::trim_start: drop leading whitespace characters. -/
def trimStart (s : String) : String :=
  String.mk (s.data.dropWhile Char.isWhitespace)

/-- Models trimmed.starts_with(c.is_ascii_digit): the string begins with an
ASCII decimal digit. -/
def startsWithDigit (s : String) : Bool :=
  match s.data with
  | [] => false
  | c :: _ => c.isDigit

/-- Accumulator-style splitter underlying splitWhitespace. -/
def splitWsAux : List Char → List Char → List String
  | [], acc => if acc.isEmpty then [] else [String.mk acc.reverse]
  | c :: cs, acc =>
    if c.isWhitespace then
      if acc.isEmpty then splitWsAux cs []
      else String.mk acc.reverse :: splitWsAux cs []
    else splitWsAux cs (c :: acc)

/-- Models str::split_whitespace: split on runs of whitespace, dropping empty
pieces. -/
def splitWhitespace (s : String) : List String :=
  splitWsAux s.data []

/-- Numeric value of a digit string, most significant digit first. -/
def digitsToNat (cs : List Char) : Nat :=
  cs.foldl (fun n c => n * 10 + (c.toNat - 48)) 0

/-- The modulus of u64 arithmetic. -/
def U64 : Nat := 2 ^ 64

/-- Models str::parse::<u64>: an optional leading plus sign, then one or more
ASCII digits, whose value must fit in 64 bits; anything else fails. -/
def parseU64 (s : String) : Option Nat :=
  let cs := match s.data with
    | '+' :: rest => rest
    | cs => cs
  if cs.isEmpty then none
  else if cs.all Char.isDigit then
    if digitsToNat cs < U64 then some (digitsToNat cs) else none
  else none

/-- The error conditions of the partition listing scan in
get_output_image_partition_size (steps.rs lines 128-153), each carrying the
data interpolated into the corresponding anyhow message. -/
inductive ScanError where
  | noEndSectorColumn (line : String)
  | malformedEndSector (line : String)
  | noPartitionsFound (imagePath : String)
deriving DecidableEq

/-- The anyhow message text of each scan error (steps.rs lines 133-135,
139-141, 150-152). -/
def ScanError.message : ScanError → String
  | .noEndSectorColumn line =>
      "partition line \x27" ++ line ++ "\x27 does not have an end sector column"
  | .malformedEndSector line =>
      "parsing end sector from partition line \x27" ++ line ++ "\x27"
  | .noPartitionsFound imagePath =>
      "no partition entries found in \x27sgdisk -p\x27 output for \x27" ++
        imagePath ++ "\x27"

/-- A line is a partition row iff, after trimming leading whitespace, it starts
with an ASCII decimal digit (steps.rs lines 124-127). -/
def isPartitionRow (line : String) : Bool :=
  startsWithDigit (trimStart line)

/-- Outcome of processing one line of the listing in the scan loop. -/
inductive RowClass where
  | notRow
  | missingColumn
  | badNumber
  | endSector (v : Nat)
deriving DecidableEq

/-- The scan loop body for a single line (steps.rs lines 124-142): skip lines
not starting with a digit after trimming; otherwise take whitespace token 2
(cols.nth(2), the end sector) and parse it as u64. -/
def classifyLine (line : String) : RowClass :=
  let trimmed := trimStart line
  if startsWithDigit trimmed then
    match (splitWhitespace trimmed).get? 2 with
    | none => .missingColumn
    | some col =>
      match parseU64 col with
      | none => .badNumber
      | some v => .endSector v
  else .notRow

/-- The max_end_sector accumulator update (steps.rs lines 143-146). -/
def updateMax (acc : Option Nat) (v : Nat) : Option Nat :=
  some (match acc with
    | some prev => Nat.max prev v
    | none => v)

/-- The scan loop of get_output_image_partition_size over the lines of the
sgdisk -p stdout (steps.rs lines 122-147), with early return on a malformed
row. -/
def scanMaxEndSector : List String → Option Nat → Except ScanError (Option Nat)
  | [], acc => .ok acc
  | line :: rest, acc =>
    match classifyLine line with
    | .notRow => scanMaxEndSector rest acc
    | .missingColumn => .error (.noEndSectorColumn line)
    | .badNumber => .error (.malformedEndSector line)
    | .endSector v => scanMaxEndSector rest (updateMax acc v)

/-- steps.rs get_output_image_partition_size (lines 103-156). The sector-size
string (grepped from sgdisk output by a collaborator) and the lines of the
sgdisk -p stdout are parameters; returns the pair of decimal strings
(sector_size, max_end_sector). -/
def get_output_image_partition_size (imagePath sectorSize : String)
    (lines : List String) : Except ScanError (String × String) :=
  match scanMaxEndSector lines none with
  | .error e => .error e
  | .ok none => .error (.noPartitionsFound imagePath)
  | .ok (some m) => .ok (sectorSize, toString m)

/-- Error outcomes of shrink_output_image. The two parse failures embed the
context calls at steps.rs lines 168-173. Modelled from the spec: the command
runner run_command_check_status lives in util.rs, which is not present; per the
spec, a fallback resize failure surfaces as a ShrinkFailed error carrying the
image path and the target size. -/
inductive ShrinkError where
  | malformedSectorSize
  | malformedLastSector
  | shrinkFailed (imagePath : String) (newDiskSize : String)
deriving DecidableEq

/-- The new disk size computation of shrink_output_image (steps.rs lines
175-180) in wrapping u64 arithmetic: os_partition_size = sector_size *
last_sector, then plus 34 sectors reserved for the secondary GPT. -/
def new_disk_size (sectorSize lastSector : Nat) : Nat :=
  (sectorSize * lastSector % U64 + 34 * sectorSize % U64) % U64

/-- The argument vector of the first (flagged) resize invocation (steps.rs
lines 193-194). -/
def flaggedResizeArgs (imagePath newDiskSize : String) : List String :=
  ["resize", "--shrink", "-f", "raw", imagePath, newDiskSize]

/-- steps.rs shrink_output_image (lines 162-208). The qemu-img invocation is a
collaborator, abstracted as an executor mapping an argument vector to exit
success; the returned list is the trace of invocations made, in order. The
fallback argument vector removes index 1 (the --shrink flag), mirroring
args.remove(1). -/
def shrink_output_image (imagePath sectorSizeStr lastSectorStr : String)
    (exec : List String → Bool) :
    Except ShrinkError Unit × List (List String) :=
  match parseU64 sectorSizeStr with
  | none => (.error .malformedSectorSize, [])
  | some sectorSize =>
    match parseU64 lastSectorStr with
    | none => (.error .malformedLastSector, [])
    | some lastSector =>
      let newDiskSize := toString (new_disk_size sectorSize lastSector)
      let args := flaggedResizeArgs imagePath newDiskSize
      if exec args then (.ok (), [args])
      else
        let fallbackArgs := args.eraseIdx 1
        if exec fallbackArgs then (.ok (), [args, fallbackArgs])
        else (.error (.shrinkFailed imagePath newDiskSize), [args, fallbackArgs])

instance {ε α : Type} [DecidableEq ε] [DecidableEq α] :
    DecidableEq (Except ε α) := fun x y =>
  match x, y with
  | .error a, .error b =>
    if h : a = b then .isTrue (congrArg Except.error h)
    else .isFalse (fun hc => h (Except.error.inj hc))
  | .ok a, .ok b =>
    if h : a = b then .isTrue (congrArg Except.ok h)
    else .isFalse (fun hc => h (Except.ok.inj hc))
  | .error _, .ok _ => .isFalse (fun hc => Except.noConfusion hc)
  | .ok _, .error _ => .isFalse (fun hc => Except.noConfusion hc)

/-- The parsed end-sector values of the digit-leading rows of a listing, in
row order. -/
def endSectors (lines : List String) : List Nat :=
  lines.filterMap fun line =>
    match classifyLine line with
    | .endSector v => some v
    | _ => none

/-- A listing is well formed when no digit-leading row lacks an end sector
column or fails to parse it. -/
def wellFormed (lines : List String) : Prop :=
  ∀ line ∈ lines,
    classifyLine line ≠ .missingColumn ∧ classifyLine line ≠ .badNumber

/-- Folding the scan accumulator over a list of end-sector values. -/
def accFoldMax (acc : Option Nat) (vs : List Nat) : Option Nat :=
  vs.foldl updateMax acc

lemma classifyLine_eq_notRow (line : String) (h : isPartitionRow line = false) :
    classifyLine line = .notRow := by
  unfold classifyLine
  unfold isPartitionRow at h
  simp [h]

lemma classifyLine_ne_notRow (line : String) (h : isPartitionRow line = true) :
    classifyLine line ≠ .notRow := by
  unfold classifyLine
  unfold isPartitionRow at h
  simp only [h, if_true]
  cases hc : (splitWhitespace (trimStart line)).get? 2 with
  | none => simp
  | some col => cases hp : parseU64 col <;> simp [hp]

lemma scan_nil (acc : Option Nat) : scanMaxEndSector [] acc = .ok acc := rfl

lemma scan_cons (line : String) (rest : List String) (acc : Option Nat) :
    scanMaxEndSector (line :: rest) acc =
      match classifyLine line with
      | .notRow => scanMaxEndSector rest acc
      | .missingColumn => .error (.noEndSectorColumn line)
      | .badNumber => .error (.malformedEndSector line)
      | .endSector v => scanMaxEndSector rest (updateMax acc v) := rfl

lemma scan_eq_ok_of_wf :
    ∀ (lines : List String) (acc : Option Nat), wellFormed lines →
      scanMaxEndSector lines acc = .ok (accFoldMax acc (endSectors lines)) := by
  intro lines
  induction lines with
  | nil => intro acc _; rfl
  | cons line rest ih =>
    intro acc hwf
    have hline := hwf line (List.mem_cons_self _ _)
    have hrest : wellFormed rest := fun l hl => hwf l (List.mem_cons_of_mem _ hl)
    rw [scan_cons]
    cases hcl : classifyLine line with
    | notRow =>
      simp only [endSectors, List.filterMap_cons, hcl]
      exact ih acc hrest
    | missingColumn => exact absurd hcl hline.1
    | badNumber => exact absurd hcl hline.2
    | endSector v =>
      simp only [endSectors, List.filterMap_cons, hcl, accFoldMax,
        List.foldl_cons]
      exact ih (updateMax acc v) hrest

lemma wf_of_scan_ok :
    ∀ (lines : List String) (acc : Option Nat) (r : Option Nat),
      scanMaxEndSector lines acc = .ok r → wellFormed lines := by
  intro lines
  induction lines with
  | nil => intro _ _ _ l hl; cases hl
  | cons line rest ih =>
    intro acc r h
    rw [scan_cons] at h
    cases hcl : classifyLine line with
    | notRow =>
      rw [hcl] at h
      intro l hl
      rcases List.mem_cons.mp hl with rfl | hl
      · exact ⟨by simp [hcl], by simp [hcl]⟩
      · exact ih acc r h l hl
    | missingColumn => rw [hcl] at h; cases h
    | badNumber => rw [hcl] at h; cases h
    | endSector v =>
      rw [hcl] at h
      intro l hl
      rcases List.mem_cons.mp hl with rfl | hl
      · exact ⟨by simp [hcl], by simp [hcl]⟩
      · exact ih (updateMax acc v) r h l hl

lemma accFoldMax_some :
    ∀ (vs : List Nat) (a : Nat),
      accFoldMax (some a) vs = some (vs.foldl Nat.max a) := by
  intro vs
  induction vs with
  | nil => intro a; rfl
  | cons v vs ih =>
    intro a
    show accFoldMax (updateMax (some a) v) vs = _
    rw [show updateMax (some a) v = some (Nat.max a v) from rfl, ih,
      List.foldl_cons]

lemma accFoldMax_none_cons (v : Nat) (vs : List Nat) :
    accFoldMax none (v :: vs) = some (vs.foldl Nat.max v) := by
  show accFoldMax (updateMax none v) vs = _
  rw [show updateMax none v = some v from rfl, accFoldMax_some]

lemma foldl_max_self_le : ∀ (vs : List Nat) (a : Nat), a ≤ vs.foldl Nat.max a := by
  intro vs
  induction vs with
  | nil => intro a; exact Nat.le_refl a
  | cons v vs ih =>
    intro a
    rw [List.foldl_cons]
    exact Nat.le_trans (Nat.le_max_left a v) (ih (Nat.max a v))

lemma foldl_max_le_of_mem :
    ∀ (vs : List Nat) (a v : Nat), v ∈ vs → v ≤ vs.foldl Nat.max a := by
  intro vs
  induction vs with
  | nil => intro _ _ hv; cases hv
  | cons w vs ih =>
    intro a v hv
    rw [List.foldl_cons]
    rcases List.mem_cons.mp hv with rfl | hv
    · exact Nat.le_trans (Nat.le_max_right a v) (foldl_max_self_le vs _)
    · exact ih (Nat.max a w) v hv

lemma foldl_max_mem :
    ∀ (vs : List Nat) (a : Nat), vs.foldl Nat.max a = a ∨ vs.foldl Nat.max a ∈ vs := by
  intro vs
  induction vs with
  | nil => intro a; exact Or.inl rfl
  | cons v vs ih =>
    intro a
    rw [List.foldl_cons]
    rcases ih (Nat.max a v) with h | h
    · rw [h]
      rcases Nat.le_total a v with hav | hva
      · have hmv : Nat.max a v = v := Nat.max_eq_right hav
        exact Or.inr (by rw [hmv]; exact List.mem_cons_self _ _)
      · exact Or.inl (Nat.max_eq_left hva)
    · exact Or.inr (List.mem_cons_of_mem _ h)

lemma accFoldMax_spec (ends : List Nat) (m : Nat)
    (h : accFoldMax none ends = some m) :
    m ∈ ends ∧ ∀ v ∈ ends, v ≤ m := by
  cases ends with
  | nil => cases h
  | cons e es =>
    rw [accFoldMax_none_cons] at h
    have hm : m = es.foldl Nat.max e := (Option.some.inj h).symm
    constructor
    · rcases foldl_max_mem es e with h1 | h1
      · rw [hm, h1]; exact List.mem_cons_self _ _
      · rw [hm]; exact List.mem_cons_of_mem _ h1
    · intro v hv
      rcases List.mem_cons.mp hv with rfl | hv
      · rw [hm]; exact foldl_max_self_le es v
      · rw [hm]; exact foldl_max_le_of_mem es e v hv

lemma accFoldMax_none_perm (ends ends' : List Nat) (m : Nat)
    (hp : ends.Perm ends') (hm : accFoldMax none ends = some m) :
    accFoldMax none ends' = some m := by
  rcases accFoldMax_spec ends m hm with ⟨hmem, hub⟩
  cases ends' with
  | nil =>
    rw [hp.eq_nil] at hm
    simp [accFoldMax] at hm
  | cons e' es' =>
    have hm' : accFoldMax none (e' :: es') = some (es'.foldl Nat.max e') :=
      accFoldMax_none_cons e' es'
    rcases accFoldMax_spec _ _ hm' with ⟨hmem', hub'⟩
    have h1 : m ≤ es'.foldl Nat.max e' := hub' m (hp.mem_iff.mp hmem)
    have h2 : es'.foldl Nat.max e' ≤ m := hub _ (hp.mem_iff.mpr hmem')
    rw [hm']
    exact congrArg some (Nat.le_antisymm h2 h1)

lemma scan_all_skip :
    ∀ (lines : List String) (acc : Option Nat),
      (∀ l ∈ lines, isPartitionRow l = false) →
      scanMaxEndSector lines acc = .ok acc := by
  intro lines
  induction lines with
  | nil => intro acc _; rfl
  | cons line rest ih =>
    intro acc h
    rw [scan_cons, classifyLine_eq_notRow line (h line (List.mem_cons_self _ _))]
    exact ih acc (fun l hl => h l (List.mem_cons_of_mem _ hl))

lemma startsWithDigit_iff (s : String) :
    startsWithDigit s = true ↔ ∃ c cs, s.data = c :: cs ∧ c.isDigit = true := by
  unfold startsWithDigit
  cases hd : s.data with
  | nil => simp
  | cons c cs =>
    constructor
    · intro h; exact ⟨c, cs, rfl, h⟩
    · rintro ⟨c', cs', h1, h2⟩
      rw [List.cons.injEq] at h1
      rw [h1.1]; exact h2

/-- Claim C1: for every non-empty collection of partition end sectors, the
planned new disk size (a u64 quantity) equals sector_size * max_end_sector +
34 * sector_size computed in u64 arithmetic, where max_end_sector is the
maximum end sector over the collection; the maximum (and hence the plan) is
independent of the order of the records. -/
theorem planned_disk_size_formula (sectorSize : Nat) (ends : List Nat)
    (hne : ends ≠ []) :
    ∃ m, accFoldMax none ends = some m ∧ m ∈ ends ∧ (∀ e ∈ ends, e ≤ m) ∧
      new_disk_size sectorSize m = (sectorSize * m + 34 * sectorSize) % U64 ∧
      ∀ ends' : List Nat, ends.Perm ends' → accFoldMax none ends' = some m := by
  cases ends with
  | nil => exact absurd rfl hne
  | cons e es =>
    have hsome := accFoldMax_none_cons e es
    rcases accFoldMax_spec _ _ hsome with ⟨hmem, hub⟩
    exact ⟨_, hsome, hmem, hub, (Nat.add_mod _ _ _).symm,
      fun ends' hp => accFoldMax_none_perm _ _ _ hp hsome⟩

/-- Witness for C1 at sector size 512 and end sectors 2048, 4096, 62914559. -/
theorem planned_disk_size_formula_witness :
    ([2048, 4096, 62914559] : List Nat) ≠ [] ∧
    ∃ m, accFoldMax none [2048, 4096, 62914559] = some m ∧
      m ∈ ([2048, 4096, 62914559] : List Nat) ∧
      (∀ e ∈ ([2048, 4096, 62914559] : List Nat), e ≤ m) ∧
      new_disk_size 512 m = (512 * m + 34 * 512) % U64 ∧
      ∀ ends' : List Nat, ([2048, 4096, 62914559] : List Nat).Perm ends' →
        accFoldMax none ends' = some m :=
  ⟨by decide, planned_disk_size_formula 512 [2048, 4096, 62914559] (by decide)⟩

/-- Claim C2: whenever the scan loop returns a last sector m, m is the maximum
of the parsed end-sector (third) columns over all digit-leading rows (it is one
of them and bounds all of them), and any permutation of the listing lines
yields the same result — no hardcoded last-partition index, no dependence on
row order or index gaps. -/
theorem scan_max_end_sector_correct (lines : List String) (m : Nat)
    (h : scanMaxEndSector lines none = .ok (some m)) :
    m ∈ endSectors lines ∧ (∀ v ∈ endSectors lines, v ≤ m) ∧
    ∀ lines' : List String, lines.Perm lines' →
      scanMaxEndSector lines' none = .ok (some m) := by
  have hwf := wf_of_scan_ok lines none (some m) h
  have heq := scan_eq_ok_of_wf lines none hwf
  rw [h] at heq
  have hacc : accFoldMax none (endSectors lines) = some m :=
    (Except.ok.inj heq).symm
  rcases accFoldMax_spec _ _ hacc with ⟨hmem, hub⟩
  refine ⟨hmem, hub, ?_⟩
  intro lines' hp
  have hwf' : wellFormed lines' := fun l hl => hwf l (hp.mem_iff.mpr hl)
  have heq' := scan_eq_ok_of_wf lines' none hwf'
  have hperm : (endSectors lines).Perm (endSectors lines') := hp.filterMap _
  rw [accFoldMax_none_perm _ _ _ hperm hacc] at heq'
  exact heq'

/-- Witness for C2 on a listing whose partition indices are 1, 2, 4, 5 (a gap
and a non-monotonic final index): the maximum end sector 32767 sits on the row
numbered 4, not the last row. -/
theorem scan_max_end_sector_correct_witness :
    scanMaxEndSector
        ["Number  Start (sector)    End (sector)  Size       Code  Name",
         "   1            2048            4095   1024.0 KiB  EF02",
         "   2            4096            8191   2.0 MiB     EF00",
         "   4           16384           32767   8.0 MiB     0700",
         "   5            8192           16383   4.0 MiB     2700"] none =
      .ok (some 32767) ∧
    32767 ∈ endSectors
        ["Number  Start (sector)    End (sector)  Size       Code  Name",
         "   1            2048            4095   1024.0 KiB  EF02",
         "   2            4096            8191   2.0 MiB     EF00",
         "   4           16384           32767   8.0 MiB     0700",
         "   5            8192           16383   4.0 MiB     2700"] :=
  ⟨by decide, (scan_max_end_sector_correct _ 32767 (by decide)).1⟩

/-- Claim C3: when the first (flagged) resize invocation fails and the second
succeeds, shrink_output_image makes exactly those two invocations — the second
being the first with the element at index 1, the --shrink capability flag,
removed — and returns success. -/
theorem shrink_fallback_success (imagePath sectorSizeStr lastSectorStr : String)
    (exec : List String → Bool) (sectorSize lastSector : Nat)
    (hs : parseU64 sectorSizeStr = some sectorSize)
    (hl : parseU64 lastSectorStr = some lastSector)
    (h1 : exec (flaggedResizeArgs imagePath
        (toString (new_disk_size sectorSize lastSector))) = false)
    (h2 : exec ((flaggedResizeArgs imagePath
        (toString (new_disk_size sectorSize lastSector))).eraseIdx 1) = true) :
    shrink_output_image imagePath sectorSizeStr lastSectorStr exec =
      (.ok (),
        [flaggedResizeArgs imagePath
            (toString (new_disk_size sectorSize lastSector)),
          (flaggedResizeArgs imagePath
            (toString (new_disk_size sectorSize lastSector))).eraseIdx 1]) ∧
    (flaggedResizeArgs imagePath
        (toString (new_disk_size sectorSize lastSector))).eraseIdx 1 =
      ["resize", "-f", "raw", imagePath,
        toString (new_disk_size sectorSize lastSector)] ∧
    (flaggedResizeArgs imagePath
        (toString (new_disk_size sectorSize lastSector))).get? 1 =
      some "--shrink" := by
  refine ⟨?_, rfl, rfl⟩
  unfold shrink_output_image
  rw [hs, hl]
  simp [h1, h2]

/-- Witness for C3: an executor that rejects any invocation containing
--shrink and accepts any other makes the flagged attempt fail and the fallback
succeed. -/
theorem shrink_fallback_success_witness :
    parseU64 "512" = some 512 ∧
    shrink_output_image "disk.img" "512" "100"
        (fun a => !(a.contains "--shrink")) =
      (.ok (),
        [flaggedResizeArgs "disk.img" (toString (new_disk_size 512 100)),
          (flaggedResizeArgs "disk.img"
            (toString (new_disk_size 512 100))).eraseIdx 1]) :=
  ⟨by decide,
    (shrink_fallback_success "disk.img" "512" "100"
      (fun a => !(a.contains "--shrink")) 512 100
      (by decide) (by decide) (by decide) (by decide)).1⟩

/-- Claim C4: when both the flagged and the fallback resize invocations fail,
shrink_output_image fails with ShrinkFailed carrying the image path and the
target size, after exactly two invocations — no third attempt. -/
theorem shrink_total_failure (imagePath sectorSizeStr lastSectorStr : String)
    (exec : List String → Bool) (sectorSize lastSector : Nat)
    (hs : parseU64 sectorSizeStr = some sectorSize)
    (hl : parseU64 lastSectorStr = some lastSector)
    (h1 : exec (flaggedResizeArgs imagePath
        (toString (new_disk_size sectorSize lastSector))) = false)
    (h2 : exec ((flaggedResizeArgs imagePath
        (toString (new_disk_size sectorSize lastSector))).eraseIdx 1) = false) :
    shrink_output_image imagePath sectorSizeStr lastSectorStr exec =
      (.error (.shrinkFailed imagePath
          (toString (new_disk_size sectorSize lastSector))),
        [flaggedResizeArgs imagePath
            (toString (new_disk_size sectorSize lastSector)),
          (flaggedResizeArgs imagePath
            (toString (new_disk_size sectorSize lastSector))).eraseIdx 1]) ∧
    (shrink_output_image imagePath sectorSizeStr lastSectorStr exec).2.length =
      2 := by
  have hmain : shrink_output_image imagePath sectorSizeStr lastSectorStr exec =
      (.error (.shrinkFailed imagePath
          (toString (new_disk_size sectorSize lastSector))),
        [flaggedResizeArgs imagePath
            (toString (new_disk_size sectorSize lastSector)),
          (flaggedResizeArgs imagePath
            (toString (new_disk_size sectorSize lastSector))).eraseIdx 1]) := by
    unfold shrink_output_image
    rw [hs, hl]
    simp [h1, h2]
  exact ⟨hmain, by rw [hmain]; rfl⟩

/-- Witness for C4: an executor that fails every invocation. -/
theorem shrink_total_failure_witness :
    shrink_output_image "disk.img" "512" "100" (fun _ => false) =
      (.error (.shrinkFailed "disk.img" (toString (new_disk_size 512 100))),
        [flaggedResizeArgs "disk.img" (toString (new_disk_size 512 100)),
          (flaggedResizeArgs "disk.img"
            (toString (new_disk_size 512 100))).eraseIdx 1]) ∧
    (shrink_output_image "disk.img" "512" "100" (fun _ => false)).2.length =
      2 :=
  shrink_total_failure "disk.img" "512" "100" (fun _ => false) 512 100
    (by decide) (by decide) rfl rfl

/-- Counterexample to claim C5 as stated: rows whose partition-index column
(column 0) or start-sector column (column 1) is not numeric do NOT cause a
malformed-row error — the scan parses only the end-sector column and returns
normally, contributing the end sector to the maximum. -/
theorem scan_ignores_start_and_index_columns :
    parseU64 "notanumber" = none ∧ parseU64 "1x" = none ∧
    scanMaxEndSector ["1 notanumber 100"] none = .ok (some 100) ∧
    scanMaxEndSector ["1x 5 100"] none = .ok (some 100) := by
  exact ⟨by decide, by decide, by decide, by decide⟩

/-- Claim C5 as amended: for every digit-leading partition row with an
end-sector (third) column, only that column is parsed as u64 — the scan's
behavior is fully determined by it, regardless of the contents of columns 0
and 1 — and a non-numeric end-sector column causes a malformed-row error whose
message includes the offending raw line verbatim. -/
theorem end_sector_column_parsing (line : String) (rest : List String)
    (acc : Option Nat) (col2 : String)
    (h1 : isPartitionRow line = true)
    (h2 : (splitWhitespace (trimStart line)).get? 2 = some col2) :
    scanMaxEndSector (line :: rest) acc =
      (match parseU64 col2 with
       | none => .error (.malformedEndSector line)
       | some v => scanMaxEndSector rest (updateMax acc v)) ∧
    ∃ p q, (ScanError.malformedEndSector line).message = p ++ line ++ q := by
  constructor
  · rw [scan_cons]
    have hcl : classifyLine line =
        (match parseU64 col2 with
         | none => RowClass.badNumber
         | some v => RowClass.endSector v) := by
      unfold classifyLine
      unfold isPartitionRow at h1
      simp only [h1, if_true, h2]
    rw [hcl]
    cases parseU64 col2 <;> rfl
  · exact ⟨"parsing end sector from partition line \x27", "\x27", rfl⟩

/-- Witness for C5 as amended: a digit-leading row whose end-sector column is
"banana" produces the malformed-row error carrying the raw line. -/
theorem end_sector_column_parsing_witness :
    (isPartitionRow "3 10 banana" = true ∧
      (splitWhitespace (trimStart "3 10 banana")).get? 2 = some "banana") ∧
    scanMaxEndSector ["3 10 banana"] none =
      .error (.malformedEndSector "3 10 banana") := by
  refine ⟨⟨by decide, by decide⟩, ?_⟩
  have h := end_sector_column_parsing "3 10 banana" [] none "banana"
    (by decide) (by decide)
  rw [h.1]
  decide

/-- Claim C6: a listing with zero digit-leading rows makes
get_output_image_partition_size fail with the no-partitions-found error
carrying the image path; it never returns a success result. -/
theorem no_partition_rows_error (imagePath sectorSize : String)
    (lines : List String)
    (h : ∀ line ∈ lines, isPartitionRow line = false) :
    get_output_image_partition_size imagePath sectorSize lines =
      .error (.noPartitionsFound imagePath) ∧
    ∀ r, get_output_image_partition_size imagePath sectorSize lines ≠
      .ok r := by
  have hscan := scan_all_skip lines none h
  have hmain : get_output_image_partition_size imagePath sectorSize lines =
      .error (.noPartitionsFound imagePath) := by
    unfold get_output_image_partition_size
    rw [hscan]
  exact ⟨hmain, fun r hc => by rw [hmain] at hc; cases hc⟩

/-- Witness for C6 on a header-only sgdisk listing. -/
theorem no_partition_rows_error_witness :
    (∀ line ∈
        ["Disk winserver.img: 62914560 sectors, 30.0 GiB",
         "Number  Start (sector)    End (sector)  Size       Code  Name"],
      isPartitionRow line = false) ∧
    get_output_image_partition_size "winserver.img" "512"
        ["Disk winserver.img: 62914560 sectors, 30.0 GiB",
         "Number  Start (sector)    End (sector)  Size       Code  Name"] =
      .error (.noPartitionsFound "winserver.img") :=
  ⟨by decide,
    (no_partition_rows_error "winserver.img" "512" _ (by decide)).1⟩

/-- Counterexample to claim C7 as stated: the claimed byte values are
miscalculated — 512 * 62914559 is 32212254208, not 32212509696 (that is
512 * 62915058), so the planned size is not 32212527104 and the code does not
compute it. -/
theorem concrete_scenario_stated_value_false :
    new_disk_size 512 62914559 = 32212271616 ∧
    (32212271616 : Nat) ≠ 32212527104 ∧
    512 * 62914559 ≠ 32212509696 ∧
    512 * 62915058 = 32212509696 := by
  exact ⟨by decide, by decide, by decide, by decide⟩

/-- Claim C7 as amended: with sector size 512 and partitions whose end sectors
are 2048, 4096 and 62914559, the scan reports 62914559 as max end sector and
the planned new disk size is 512 * 62914559 + 34 * 512 = 32212254208 + 17408 =
32212271616. -/
theorem concrete_shrink_scenario :
    get_output_image_partition_size "winserver.img" "512"
        ["Disk winserver.img: 62914560 sectors, 30.0 GiB",
         "Number  Start (sector)    End (sector)  Size       Code  Name",
         "   1            2048            2048   512 bytes   EF02",
         "   2            2049            4096   1024.0 KiB  EF00",
         "   3            4097        62914559   30.0 GiB    0700"] =
      .ok ("512", "62914559") ∧
    new_disk_size 512 62914559 = 32212271616 ∧
    512 * 62914559 + 34 * 512 = 32212254208 + 17408 ∧
    (32212254208 + 17408 : Nat) = 32212271616 := by
  exact ⟨by decide, by decide, by decide, by decide⟩

/-- Claim C8: a line contributes nothing to the scan (it is skipped, leaving
both accumulator and result unchanged in every context) if and only if its
first character after trimming leading whitespace is not an ASCII decimal
digit. -/
theorem row_detection_iff (line : String) :
    (∀ (rest : List String) (acc : Option Nat),
        scanMaxEndSector (line :: rest) acc = scanMaxEndSector rest acc) ↔
      ¬ ∃ c cs, (trimStart line).data = c :: cs ∧ c.isDigit = true := by
  constructor
  · intro h hex
    have hd : isPartitionRow line = true := by
      unfold isPartitionRow
      exact (startsWithDigit_iff (trimStart line)).mpr hex
    have h0 := h [] none
    rw [scan_cons] at h0
    cases hcl : classifyLine line with
    | notRow => exact absurd hcl (classifyLine_ne_notRow line hd)
    | missingColumn => rw [hcl] at h0; cases h0
    | badNumber => rw [hcl] at h0; cases h0
    | endSector v =>
      rw [hcl] at h0
      have h0' : (Except.ok (some v) : Except ScanError (Option Nat)) =
          Except.ok none := h0
      exact Option.noConfusion (Except.ok.inj h0')
  · intro h rest acc
    have hd : isPartitionRow line = false := by
      unfold isPartitionRow
      cases hb : startsWithDigit (trimStart line)
      · rfl
      · exact absurd ((startsWithDigit_iff _).mp hb) h
    rw [scan_cons, classifyLine_eq_notRow line hd]

/-- Claim C9: every digit-leading row with fewer than 3 whitespace-delimited
columns is rejected with an error naming the offending line (the guarded
cols.nth(2) access), rather than being skipped or contributing to the
maximum. -/
theorem short_row_rejected (line : String) (rest : List String)
    (acc : Option Nat)
    (h1 : isPartitionRow line = true)
    (h2 : (splitWhitespace (trimStart line)).length < 3) :
    scanMaxEndSector (line :: rest) acc = .error (.noEndSectorColumn line) ∧
    ∃ p q, (ScanError.noEndSectorColumn line).message = p ++ line ++ q := by
  constructor
  · have hn : (splitWhitespace (trimStart line)).get? 2 = none := by
      apply List.get?_eq_none.mpr
      omega
    have hcl : classifyLine line = .missingColumn := by
      unfold classifyLine
      unfold isPartitionRow at h1
      simp only [h1, if_true, hn]
    rw [scan_cons, hcl]
  · exact ⟨"partition line \x27", "\x27 does not have an end sector column",
      rfl⟩

/-- Witness for C9: a digit-leading row with only two columns is rejected. -/
theorem short_row_rejected_witness :
    (isPartitionRow "3 1024" = true ∧
      (splitWhitespace (trimStart "3 1024")).length < 3) ∧
    scanMaxEndSector ["3 1024"] none =
      .error (.noEndSectorColumn "3 1024") :=
  ⟨⟨by decide, by decide⟩,
    (short_row_rejected "3 1024" [] none (by decide) (by decide)).1⟩

/-- Claim C10: the new disk size is computed with unchecked (wrapping) u64
arithmetic: whenever the mathematical value sector_size * last_sector + 34 *
sector_size reaches 2^64, the computed size is that value reduced modulo 2^64
(in particular it differs from the mathematical value), and
shrink_output_image raises no overflow error — given parseable inputs its only
outcomes are success or the two-attempt shrink failure. -/
theorem unchecked_u64_wrap (s l : Nat) (_hs : s < U64) (_hl : l < U64)
    (hov : U64 ≤ s * l + 34 * s) :
    new_disk_size s l = (s * l + 34 * s) % U64 ∧
    new_disk_size s l ≠ s * l + 34 * s ∧
    ∀ (imagePath sectorSizeStr lastSectorStr : String)
      (exec : List String → Bool),
      parseU64 sectorSizeStr = some s → parseU64 lastSectorStr = some l →
      (shrink_output_image imagePath sectorSizeStr lastSectorStr exec).1 =
        .ok () ∨
      (shrink_output_image imagePath sectorSizeStr lastSectorStr exec).1 =
        .error (.shrinkFailed imagePath (toString (new_disk_size s l))) := by
  have hmod : new_disk_size s l = (s * l + 34 * s) % U64 :=
    (Nat.add_mod _ _ _).symm
  refine ⟨hmod, ?_, ?_⟩
  · rw [hmod]
    intro hc
    have hlt : (s * l + 34 * s) % U64 < U64 :=
      Nat.mod_lt _ (by unfold U64; positivity)
    rw [hc] at hlt
    exact absurd hlt (not_lt.mpr hov)
  · intro imagePath ss ls exec hps hpl
    unfold shrink_output_image
    rw [hps, hpl]
    cases hA : exec (flaggedResizeArgs imagePath (toString (new_disk_size s l))) with
    | true =>
      left
      simp [hA]
    | false =>
      cases hB : exec ((flaggedResizeArgs imagePath
          (toString (new_disk_size s l))).eraseIdx 1) with
      | true =>
        left
        simp [hA, hB]
      | false =>
        right
        simp [hA, hB]

/-- Witness for C10 at sector size 2^63 and last sector 3, whose mathematical
size 37 * 2^63 exceeds 2^64 and wraps. -/
theorem unchecked_u64_wrap_witness :
    (9223372036854775808 < U64 ∧ 3 < U64 ∧
      U64 ≤ 9223372036854775808 * 3 + 34 * 9223372036854775808) ∧
    new_disk_size 9223372036854775808 3 =
      (9223372036854775808 * 3 + 34 * 9223372036854775808) % U64 ∧
    new_disk_size 9223372036854775808 3 ≠
      9223372036854775808 * 3 + 34 * 9223372036854775808 := by
  have h := unchecked_u64_wrap 9223372036854775808 3
    (by decide) (by decide) (by decide)
  exact ⟨⟨by decide, by decide, by decide⟩, h.1, h.2.1⟩

end Steps
